import Mathlib

/-!
Verification development for the bvbscraper repository.

Shallow embedding of the entity model (`Company`, `Share` from
src/bvbscraper/bvb/company.py and src/bvbscraper/bvb/share.py), the listing
header normalizer and `get_all_shares` (src/bvbscraper/bvb/scraper_service.py),
and the history date-range resolution / response handling of `get_history`
(src/build/lib/bvbscraper/bvb/scraper_service.py).

Modelling conventions:
* Python strings are `List Char` (`Str`); Python `None`-or-string setter
  arguments are `Option Str` (`none` = Python `None`); Python truthiness of a
  string is non-emptiness.
* Setters are state transformers `Except PyErr _`: `.error` models a raised
  exception, `.ok` a normal return.  Python stores private attributes and the
  getters return the attribute if present else `None`; both an absent
  attribute and an attribute stored as `None` read back as `None` through the
  getter, so each field is modelled as one `Option` holding the getter's view.
* `re.findall` truthiness of a pattern anchored `^...$` is modelled including
  CPython's `$` semantics: `$` also matches just before a single trailing
  newline (`reDollar`).  Patterns without a trailing `$` match a prefix.
* Uppercasing/whitespace are modelled on ASCII (the scraped data is ASCII).
* Apostrophes and surrounding quote characters that appear inside some
  source-code message literals are omitted from the modelled messages.
-/

abbrev Str := List Char

/-- Python `str.strip()` whitespace test (ASCII part: space, \t, \n, \r, \v, \f). -/
def pyIsSpace (c : Char) : Bool :=
  c = ' ' || c = '\t' || c = '\n' || c = '\r' || c = '\x0b' || c = '\x0c'

/-- Python `str.strip()`: drop leading and trailing whitespace. -/
def pyStrip (s : Str) : Str :=
  List.rdropWhile pyIsSpace (s.dropWhile pyIsSpace)

/-- Python `str.upper()` (ASCII). -/
def pyUpper (s : Str) : Str := s.map Char.toUpper

/-- Python `s.split(sep)` for a one-character separator: keeps empty pieces,
`"".split(";") = [""]`. -/
def splitOnChar (c : Char) : Str → List Str
  | [] => [[]]
  | x :: xs =>
    match splitOnChar c xs with
    | [] => [[]]
    | t :: ts => if x = c then [] :: t :: ts else (x :: t) :: ts

/-- Python `sep.join(parts)` for a one-character separator. -/
def joinChar (c : Char) : List Str → Str
  | [] => []
  | [t] => t
  | t :: ts => t ++ c :: joinChar c ts

/-- Python `s.split("\r\n")` (two-character separator, left-to-right,
non-overlapping). -/
def splitCRLF : Str → List Str
  | [] => [[]]
  | '\r' :: '\n' :: xs =>
    match splitCRLF xs with
    | [] => [[]]
    | ts => [] :: ts
  | x :: xs =>
    match splitCRLF xs with
    | [] => [[]]
    | t :: ts => (x :: t) :: ts

/-- Python string truthiness of an optional-string value (`None` and `""` are
falsy). -/
def truthyS : Option Str → Bool
  | none => false
  | some s => !s.isEmpty

/-- CPython `$`-anchor semantics for a whole-string pattern `^P$` without
`re.MULTILINE`: the body may also stop just before a single trailing
newline. -/
def reDollar (body : Str → Bool) (s : Str) : Bool :=
  body s || (decide (s.getLast? = some '\n') && body s.dropLast)

def isAsciiUpper (c : Char) : Bool := 'A' ≤ c && c ≤ 'Z'

def isUpperOrDigit (c : Char) : Bool := isAsciiUpper c || c.isDigit

/-- Body of the ISIN pattern `^[A-Z]{2}[A-Z0-9]{9}[0-9]{1}$` as a full-string
match (share.py, `Share.isin` setter). -/
def isinBody : Str → Bool
  | [a, b, c1, c2, c3, c4, c5, c6, c7, c8, c9, d] =>
    isAsciiUpper a && isAsciiUpper b &&
      isUpperOrDigit c1 && isUpperOrDigit c2 && isUpperOrDigit c3 &&
      isUpperOrDigit c4 && isUpperOrDigit c5 && isUpperOrDigit c6 &&
      isUpperOrDigit c7 && isUpperOrDigit c8 && isUpperOrDigit c9 &&
      d.isDigit
  | _ => false

/-- Body of `^[a-zA-Z0-9]+$` (symbol validation). -/
def alnum1 (s : Str) : Bool :=
  !s.isEmpty && s.all (fun c => c.isAlpha || c.isDigit)

/-- Body of `^[A-Z]{2}$` (country ISO2 validation). -/
def twoUpper : Str → Bool
  | [a, b] => isAsciiUpper a && isAsciiUpper b
  | _ => false

/-- Body of `^[0-9]{4}$` (NACE code validation). -/
def fourDigits : Str → Bool
  | [a, b, c, d] => a.isDigit && b.isDigit && c.isDigit && d.isDigit
  | _ => false

def crcMidAux : Str → Bool
  | '/' :: e1 :: e2 :: e3 :: e4 :: _ =>
    e1.isDigit && e2.isDigit && e3.isDigit && e4.isDigit
  | c :: cs => c.isDigit && crcMidAux cs
  | [] => false

/-- After `[JCF][0-9]{2}/`: one or more digits, `/`, then four digits
(anything may follow). -/
def crcMid : Str → Bool
  | c :: cs => c.isDigit && crcMidAux cs
  | [] => false

/-- `re.findall(r"^[JCF][0-9]{2}/[0-9]+/[0-9]{4}", s)` truthiness: the pattern
has no end anchor, so it matches any string with a conforming prefix. -/
def crcStart : Str → Bool
  | j :: d1 :: d2 :: '/' :: rest =>
    (j = 'J' || j = 'C' || j = 'F') && d1.isDigit && d2.isDigit && crcMid rest
  | _ => false

/-- `l` has the shape `b ++ "." ++ c` with `b`, `c` non-empty: a dot occurs
neither first nor last. -/
def dotInside (l : Str) : Bool := ((l.drop 1).dropLast).contains '.'

/-- There is an `@` (preceded by at least one character) whose tail matches
`.+\..+`. -/
def emailAfterFirst : Str → Bool
  | [] => false
  | '@' :: rest => dotInside rest || emailAfterFirst rest
  | _ :: rest => emailAfterFirst rest

/-- `re.findall(r"^(.+@.+\..+)+", s)` truthiness: a prefix of the first
newline-free segment decomposes as `.+@.+\..+`. -/
def emailFindall (s : Str) : Bool :=
  match s.takeWhile (fun c => c ≠ '\n') with
  | [] => false
  | _ :: rest => emailAfterFirst rest

/-- Python `int(s)` on a string: strips whitespace, optional sign, decimal
digits (single underscores between digits also accepted; unicode digits not
modelled). `none` models `ValueError`. -/
def digitsValAux (acc : Nat) : Str → Option Nat
  | [] => some acc
  | '_' :: c :: cs =>
    if c.isDigit then digitsValAux (acc * 10 + (c.toNat - 48)) cs else none
  | ['_'] => none
  | c :: cs =>
    if c.isDigit then digitsValAux (acc * 10 + (c.toNat - 48)) cs else none

def digitsVal : Str → Option Nat
  | [] => none
  | c :: cs => if c.isDigit then digitsValAux (c.toNat - 48) cs else none

def pyIntOfStr (s : Str) : Option Int :=
  match pyStrip s with
  | '+' :: r => (digitsVal r).map Int.ofNat
  | '-' :: r => (digitsVal r).map (fun n => -(n : Int))
  | r => (digitsVal r).map Int.ofNat

def digitsToNat (s : Str) : Nat :=
  s.foldl (fun acc c => acc * 10 + (c.toNat - 48)) 0

/-- Python `float(s)` on a decimal string (sign, digits, optional fractional
part; exponents / inf / nan / underscores not modelled — no theorem below
depends on those forms). `none` models `ValueError`. -/
def floatCore (r : Str) : Option ℚ :=
  let ip := r.takeWhile Char.isDigit
  let rest := r.dropWhile Char.isDigit
  match rest with
  | [] => if ip.isEmpty then none else some ((digitsToNat ip : ℚ))
  | '.' :: frac =>
    if frac.all Char.isDigit && !(ip.isEmpty && frac.isEmpty) then
      some ((digitsToNat ip : ℚ) + (digitsToNat frac : ℚ) / ((10 : ℚ) ^ frac.length))
    else none
  | _ => none

def pyFloatOfStr (s : Str) : Option ℚ :=
  match pyStrip s with
  | '+' :: r => floatCore r
  | '-' :: r => (floatCore r).map (fun q => -q)
  | r => floatCore r

/-- Raised Python exceptions, with (modelled) messages. -/
inductive PyErr where
  | typeErr (msg : Str)
  | valueErr (msg : Str)
  | keyErr (msg : Str)
  | indexErr (msg : Str)
  | exc (msg : Str)
deriving DecidableEq, Repr

instance {ε α : Type} [DecidableEq ε] [DecidableEq α] : DecidableEq (Except ε α) := fun a b =>
  match a, b with
  | .ok x, .ok y =>
    if h : x = y then .isTrue (by rw [h]) else .isFalse (fun q => h (Except.ok.inj q))
  | .error x, .error y =>
    if h : x = y then .isTrue (by rw [h]) else .isFalse (fun q => h (Except.error.inj q))
  | .ok _, .error _ => .isFalse (fun q => Except.noConfusion q)
  | .error _, .ok _ => .isFalse (fun q => Except.noConfusion q)

/-! ## Entity model: Company (src/bvbscraper/bvb/company.py)

Each optional field holds the value the Python getter would return (`none`
when the private attribute is absent).  Setters are modelled for string /
`None` inputs, which is what the scraper feeds them; `type(x) != str` branches
are therefore not taken.  `shareholders` only records that a string input is
rejected with `TypeError` (its list-typed happy path is unused here). -/

structure Company where
  name : Option Str := none
  fiscal_code : Option Str := none
  nace_code : Option Str := none
  district : Option Str := none
  country_iso2 : Option Str := none
  sector : Option Str := none
  industry : Option Str := none
  commerce_registry_code : Option Str := none
  address : Option Str := none
  website : Option Str := none
  email : Option Str := none
  activity_field : Option Str := none
  description : Option Str := none
  shareholders : Option (List (Str × Str)) := none
deriving DecidableEq, Repr

/-- `Company.name` setter: falsy value raises, truthy string is stored. -/
def Company.set_name (c : Company) (v : Option Str) : Except PyErr Company :=
  match v with
  | some s =>
    if s = [] then .error (.valueErr ("Company name must be given.".toList))
    else .ok { c with name := some s }
  | none => .error (.valueErr ("Company name must be given.".toList))

/-- `Company.fiscal_code` setter: falsy raises, all-whitespace raises, else
the string is stored verbatim. -/
def Company.set_fiscal_code (c : Company) (v : Option Str) : Except PyErr Company :=
  match v with
  | some s =>
    if s = [] then .error (.valueErr ("Fiscal code must be given".toList))
    else if pyStrip s = [] then .error (.valueErr ("Fiscal code cannot be empty.".toList))
    else .ok { c with fiscal_code := some s }
  | none => .error (.valueErr ("Fiscal code must be given".toList))

/-- `Company.nace_code` setter: hyphens removed and stripped; stored only when
the result is four digits, otherwise silently dropped (no exception). -/
def Company.set_nace_code (c : Company) (v : Option Str) : Except PyErr Company :=
  match v with
  | some s =>
    if s = [] then .ok c
    else if reDollar fourDigits (pyStrip (s.filter (fun ch => ch ≠ '-'))) then
      .ok { c with nace_code := some (pyStrip (s.filter (fun ch => ch ≠ '-'))) }
    else .ok c
  | none => .ok c

/-- `Company.district` setter: truthy string stored verbatim, falsy ignored. -/
def Company.set_district (c : Company) (v : Option Str) : Except PyErr Company :=
  match v with
  | some s => if s = [] then .ok c else .ok { c with district := some s }
  | none => .ok c

/-- `Company.country_iso2` setter: uppercased and stripped; exactly two
letters stored, otherwise `ValueError`. -/
def Company.set_country_iso2 (c : Company) (v : Option Str) : Except PyErr Company :=
  match v with
  | some s =>
    if s = [] then .ok c
    else if reDollar twoUpper (pyStrip (pyUpper s)) then
      .ok { c with country_iso2 := some (pyStrip (pyUpper s)) }
    else .error (.valueErr ("Country ISO 2 code must contain exactly two alpha characters.".toList))
  | none => .ok c

/-- `Company.sector` setter: truthy string stored uppercased. -/
def Company.set_sector (c : Company) (v : Option Str) : Except PyErr Company :=
  match v with
  | some s => if s = [] then .ok c else .ok { c with sector := some (pyUpper s) }
  | none => .ok c

/-- `Company.industry` setter: truthy string stored uppercased. -/
def Company.set_industry (c : Company) (v : Option Str) : Except PyErr Company :=
  match v with
  | some s => if s = [] then .ok c else .ok { c with industry := some (pyUpper s) }
  | none => .ok c

/-- `Company.commerce_registry_code` setter: uppercased; stored when it has a
`[JCF]dd/d+/dddd` prefix, otherwise silently dropped (no exception). -/
def Company.set_commerce_registry_code (c : Company) (v : Option Str) : Except PyErr Company :=
  match v with
  | some s =>
    if s = [] then .ok c
    else if crcStart (pyUpper s) then
      .ok { c with commerce_registry_code := some (pyUpper s) }
    else .ok c
  | none => .ok c

/-- `Company.address` setter: truthy string stored verbatim. -/
def Company.set_address (c : Company) (v : Option Str) : Except PyErr Company :=
  match v with
  | some s => if s = [] then .ok c else .ok { c with address := some s }
  | none => .ok c

/-- `Company.website` setter: truthy string stored verbatim. -/
def Company.set_website (c : Company) (v : Option Str) : Except PyErr Company :=
  match v with
  | some s => if s = [] then .ok c else .ok { c with website := some s }
  | none => .ok c

/-- `Company.email` setter: stored verbatim when `^(.+@.+\..+)+` finds a
match, otherwise silently dropped (no exception). -/
def Company.set_email (c : Company) (v : Option Str) : Except PyErr Company :=
  match v with
  | some s =>
    if s = [] then .ok c
    else if emailFindall s then .ok { c with email := some s }
    else .ok c
  | none => .ok c

/-- `Company.activity_field` setter: truthy string stored uppercased. -/
def Company.set_activity_field (c : Company) (v : Option Str) : Except PyErr Company :=
  match v with
  | some s => if s = [] then .ok c else .ok { c with activity_field := some (pyUpper s) }
  | none => .ok c

/-- `Company.description` setter: truthy string stored verbatim. -/
def Company.set_description (c : Company) (v : Option Str) : Except PyErr Company :=
  match v with
  | some s => if s = [] then .ok c else .ok { c with description := some s }
  | none => .ok c

/-- `Company.shareholders` setter on a string / `None` input: a truthy string
is not a `list`, so it raises `TypeError`; falsy is ignored. -/
def Company.set_shareholders (c : Company) (v : Option Str) : Except PyErr Company :=
  match v with
  | some s =>
    if s = [] then .ok c
    else .error (.typeErr ("Type of shareholders is defined to be list".toList))
  | none => .ok c

/-- `Company.__init__` as invoked by `get_all_shares`: the call passes
`caen_code=...`, but `__init__` reads `kwargs.get("nace_code")`, so the CAEN
value is discarded and `nace_code` is set from `None`.  All remaining optional
fields are also set from `None` (`kwargs.get` default). -/
def companyFromRow (name fiscal district country sector industry : Str) :
    Except PyErr Company := do
  let c0 : Company := {}
  let c1 ← c0.set_name (some name)
  let c2 ← c1.set_fiscal_code (some fiscal)
  let c3 ← c2.set_nace_code none
  let c4 ← c3.set_district (some district)
  let c5 ← c4.set_country_iso2 (some country)
  let c6 ← c5.set_sector (some sector)
  let c7 ← c6.set_industry (some industry)
  let c8 ← c7.set_commerce_registry_code none
  let c9 ← c8.set_address none
  let c10 ← c9.set_website none
  let c11 ← c10.set_email none
  let c12 ← c11.set_activity_field none
  let c13 ← c12.set_description none
  c13.set_shareholders none

/-! ## Entity model: Share (src/bvbscraper/bvb/share.py) -/

structure Share where
  symbol : Option Str := none
  isin : Option Str := none
  name : Option Str := none
  company : Option Company := none
  total_shares : Option Int := none
  face_value : Option ℚ := none
  segment : Option Str := none
  market : Option Str := none
  tier : Option Str := none
  status : Option Str := none
deriving DecidableEq, Repr

/-- `Share.symbol` setter: falsy raises; spaces removed; must match
`^[a-zA-Z0-9]+$` (with CPython `$` semantics), stored uppercased. -/
def Share.set_symbol (sh : Share) (v : Option Str) : Except PyErr Share :=
  match v with
  | some s =>
    if s = [] then .error (.valueErr ("Symbol must be given".toList))
    else if reDollar alnum1 (s.filter (fun ch => ch ≠ ' ')) then
      .ok { sh with symbol := some (pyUpper (s.filter (fun ch => ch ≠ ' '))) }
    else
      .error (.valueErr ("Share instance cannot be initialized with invalid string: ".toList
        ++ s.filter (fun ch => ch ≠ ' ')))
  | none => .error (.valueErr ("Symbol must be given".toList))

/-- `Share.isin` setter: falsy ignored; a `^[A-Z]{2}[A-Z0-9]{9}[0-9]{1}$`
match (CPython `$` semantics) is stored verbatim, else `ValueError`. -/
def Share.set_isin (sh : Share) (v : Option Str) : Except PyErr Share :=
  match v with
  | some s =>
    if s = [] then .ok sh
    else if reDollar isinBody s then .ok { sh with isin := some s }
    else .error (.valueErr ("Invalid ISIN code: ".toList ++ s))
  | none => .ok sh

/-- `Share.name` setter: truthy string stored verbatim. -/
def Share.set_name (sh : Share) (v : Option Str) : Except PyErr Share :=
  match v with
  | some s => if s = [] then .ok sh else .ok { sh with name := some s }
  | none => .ok sh

/-- `Share.company` setter: a `Company` instance is stored; `None` ignored. -/
def Share.set_company (sh : Share) (v : Option Company) : Except PyErr Share :=
  match v with
  | some co => .ok { sh with company := some co }
  | none => .ok sh

/-- `Share.total_shares` setter on a string input: `int()` failure raises
`TypeError`, non-positive raises `ValueError`, else the integer is stored. -/
def Share.set_total_shares (sh : Share) (v : Option Str) : Except PyErr Share :=
  match v with
  | some s =>
    if s = [] then .ok sh
    else
      match pyIntOfStr s with
      | none => .error (.typeErr ("Total shares must be integer or convertable to that.".toList))
      | some n =>
        if n ≤ 0 then .error (.valueErr ("Total shares must be a non-null positive integer".toList))
        else .ok { sh with total_shares := some n }
  | none => .ok sh

/-- `Share.face_value` setter on a string input: hyphens removed, stripped,
comma becomes dot; an empty result leaves the field untouched without raising
(the `"-"` case); a parse failure raises `TypeError`; a parsed float is
stored. -/
def Share.set_face_value (sh : Share) (v : Option Str) : Except PyErr Share :=
  match v with
  | some s =>
    if s = [] then .ok sh
    else
      match (pyStrip (s.filter (fun ch => ch ≠ '-'))).map
          (fun ch => if ch = ',' then '.' else ch) with
      | [] => .ok sh
      | t =>
        match pyFloatOfStr t with
        | none => .error (.typeErr ("Face value cannot be string".toList))
        | some q => .ok { sh with face_value := some q }
  | none => .ok sh

/-- `Share.segment` setter: member of {BSE, BER, ATS} stored, else
`ValueError`. -/
def Share.set_segment (sh : Share) (v : Option Str) : Except PyErr Share :=
  match v with
  | some s =>
    if s = [] then .ok sh
    else if s ∈ ["BSE".toList, "BER".toList, "ATS".toList] then
      .ok { sh with segment := some s }
    else .error (.valueErr ("Invalid segment abbreviation: ".toList ++ s))
  | none => .ok sh

/-- `Share.market` setter: member of {REGS, XRS1, XRSI} stored; `"-"` stores
`None` (clearing the field); else `ValueError`. -/
def Share.set_market (sh : Share) (v : Option Str) : Except PyErr Share :=
  match v with
  | some s =>
    if s = [] then .ok sh
    else if s ∈ ["REGS".toList, "XRS1".toList, "XRSI".toList] then
      .ok { sh with market := some s }
    else if s = "-".toList then .ok { sh with market := none }
    else .error (.valueErr ("Invalid market abbreviation: ".toList ++ s))
  | none => .ok sh

/-- Romanian-to-English tier synonym mapping applied after uppercasing. -/
def tierTranslate (t : Str) : Str :=
  if t = "INTL-SMT".toList then "INTL-MTS".toList
  else if t = "AERO BAZA".toList then "AERO BASE".toList
  else t

def validTiers : List Str :=
  ["INT\x27L".toList, "PREMIUM".toList, "STANDARD".toList, "AERO PREMIUM".toList,
   "AERO STANDARD".toList, "AERO BASE".toList, "INTL-MTS".toList, "III-R".toList]

/-- `Share.tier` setter: uppercased, synonym-mapped; a valid tier is stored;
`"-"` stores `None` (clearing the field); else `ValueError`. -/
def Share.set_tier (sh : Share) (v : Option Str) : Except PyErr Share :=
  match v with
  | some s =>
    if s = [] then .ok sh
    else if tierTranslate (pyUpper s) ∈ validTiers then
      .ok { sh with tier := some (tierTranslate (pyUpper s)) }
    else if tierTranslate (pyUpper s) = "-".toList then .ok { sh with tier := none }
    else .error (.valueErr ("Invalid tier abbreviation: ".toList ++ tierTranslate (pyUpper s)))
  | none => .ok sh

/-- `Share.status` setter: uppercased; only the Romanian words map (to
TRADEABLE / SUSPENDED); anything else raises `ValueError`. -/
def Share.set_status (sh : Share) (v : Option Str) : Except PyErr Share :=
  match v with
  | some s =>
    if s = [] then .ok sh
    else if pyUpper s = "TRANZACTIONABILA".toList then
      .ok { sh with status := some ("TRADEABLE".toList) }
    else if pyUpper s = "SUSPENDATA".toList then
      .ok { sh with status := some ("SUSPENDED".toList) }
    else .error (.valueErr ("Invalid Status: ".toList ++ pyUpper s))
  | none => .ok sh

/-! ## Header normalizer (`__preprocess_SharesListForDownload_header`,
`__validate_SharesListForDownload_header` in
src/bvbscraper/bvb/scraper_service.py) -/

/-- Association-list lookup (model of Python dict access on literal dicts
with distinct keys). -/
def assocLookup {κ β : Type} [DecidableEq κ] : List (κ × β) → κ → Option β
  | [], _ => none
  | (k, v) :: rest, t => if t = k then some v else assocLookup rest t

/-- The fixed Romanian-to-English header lookup table. -/
def roEnMappings : List (Str × Str) :=
  [("Simbol".toList, "Symbol".toList),
   ("Denumire emisiune".toList, "Security name".toList),
   ("ISIN".toList, "ISIN".toList),
   ("Emitent".toList, "Issuer".toList),
   ("Cod Fiscal / CUI".toList, "Fiscal / Unique Code".toList),
   ("Actiuni".toList, "Shares".toList),
   ("Valoare nominala".toList, "Face value".toList),
   ("Cod CAEN".toList, "CAEN Code".toList),
   ("Judet".toList, "District".toList),
   ("Tara".toList, "Country".toList),
   ("Sectiune bursa".toList, "Exchange segment".toList),
   ("Piata Principala".toList, "Main Market".toList),
   ("Categoria".toList, "Tier".toList),
   ("Stare".toList, "Status".toList),
   ("Model tranzactionare".toList, "Trading Model Type".toList),
   ("Lista pasi de pret".toList, "Price steps list".toList)]

/-- Message of the `warnings.warn` call for an unmapped header token. -/
def warnMsg (t : Str) : Str :=
  "[Header Preprocessing] Unfound English mapping for Romanian header ".toList ++ t

/-- One token through the lookup table (`try`/`except KeyError` pass-through). -/
def translateTok (t : Str) : Str := (assocLookup roEnMappings t).getD t

/-- The translation loop: every token is looked up; a `KeyError` leaves the
token unchanged and emits one warning.  Returns (tokens, warnings). -/
def translatePass : List Str → List Str × List Str
  | [] => ([], [])
  | t :: ts =>
    let rec_ := translatePass ts
    match assocLookup roEnMappings t with
    | some e => (e :: rec_.1, rec_.2)
    | none => (t :: rec_.1, warnMsg t :: rec_.2)

/-- Split on `";"` and strip every token (steps 1 and 2 of the
preprocessing). -/
def headerToks (line : Str) : List Str :=
  (splitOnChar ';' line).map pyStrip

/-- `__preprocess_SharesListForDownload_header`: split, strip, and — only when
the Romanian marker `"Simbol"` is among the tokens — translate every token.
Returns the token list together with the list of emitted warnings. -/
def preprocessHeader (line : Str) : List Str × List Str :=
  if "Simbol".toList ∈ headerToks line then translatePass (headerToks line)
  else (headerToks line, [])

/-- The 16 expected canonical (English) column names. -/
def expectedHeaderList : List Str :=
  ["Symbol".toList, "Security name".toList, "ISIN".toList, "Issuer".toList,
   "Fiscal / Unique Code".toList, "Shares".toList, "Face value".toList,
   "CAEN Code".toList, "District".toList, "Country".toList,
   "Exchange segment".toList, "Main Market".toList, "Tier".toList,
   "Status".toList, "Trading Model Type".toList, "Price steps list".toList]

/-- Message of the `KeyError` raised for a missing expected column. -/
def missingMsg (e : Str) : Str :=
  "[Header list validation] Expected column ".toList ++ e
    ++ " not found among actual header columns".toList

/-- The validation loop over the expected columns. -/
def validateGo (hl : List Str) : List Str → Except PyErr Unit
  | [] => .ok ()
  | e :: es =>
    if e ∈ hl then validateGo hl es
    else .error (.keyErr (missingMsg e))

/-- `__validate_SharesListForDownload_header`. -/
def validateHeader (hl : List Str) : Except PyErr Unit :=
  validateGo hl expectedHeaderList

/-! ## `get_all_shares` (src/bvbscraper/bvb/scraper_service.py) -/

/-- `cells[i]` with Python `IndexError` semantics. -/
def pyCell (cells : List Str) (i : Nat) : Except PyErr Str :=
  match cells.get? i with
  | some v => .ok v
  | none => .error (.indexErr ("list index out of range".toList))

/-- `header_list.index(x)`: first index, `ValueError` when absent. -/
def idxOfAux (x : Str) : List Str → Nat → Option Nat
  | [], _ => none
  | y :: ys, k => if y = x then some k else idxOfAux x ys (k + 1)

def pyIndex (hl : List Str) (x : Str) : Except PyErr Nat :=
  match idxOfAux x hl 0 with
  | some i => .ok i
  | none => .error (.valueErr (x ++ " is not in list".toList))

/-- The two column-index dictionaries built from the validated header list. -/
structure HeaderIdx where
  issuer : Nat
  fiscal : Nat
  caen : Nat
  district : Nat
  country : Nat
  symbol : Nat
  isin : Nat
  secname : Nat
  shares : Nat
  face : Nat
  segment : Nat
  market : Nat
  tier : Nat
deriving DecidableEq, Repr

def buildIdx (hl : List Str) : Except PyErr HeaderIdx := do
  let issuer ← pyIndex hl ("Issuer".toList)
  let fiscal ← pyIndex hl ("Fiscal / Unique Code".toList)
  let caen ← pyIndex hl ("CAEN Code".toList)
  let district ← pyIndex hl ("District".toList)
  let country ← pyIndex hl ("Country".toList)
  let symbol ← pyIndex hl ("Symbol".toList)
  let isin ← pyIndex hl ("ISIN".toList)
  let secname ← pyIndex hl ("Security name".toList)
  let shares ← pyIndex hl ("Shares".toList)
  let face ← pyIndex hl ("Face value".toList)
  let segment ← pyIndex hl ("Exchange segment".toList)
  let market ← pyIndex hl ("Main Market".toList)
  let tier ← pyIndex hl ("Tier".toList)
  pure { issuer, fiscal, caen, district, country, symbol, isin, secname,
         shares, face, segment, market, tier }

/-- The `Share(...)` call in `get_all_shares` omits the required positional
argument `status` of `Share.__init__`, so after evaluating all keyword
arguments Python raises `TypeError` before the constructor body runs. -/
def shareFromRow (_symbol _isin _name _total _face _segment _market _tier : Str)
    (_company : Company) : Except PyErr Share :=
  .error (.typeErr ("init missing 1 required positional argument: status".toList))

/-- Body of the per-row `try` block of `get_all_shares`: split the row, fetch
sector/industry for the symbol column, build the `Company` (the `caen_code`
keyword is discarded, see `companyFromRow`), then call the `Share`
constructor.  Argument evaluation (cell indexing) follows the source order. -/
def buildRow (fetchSI : Str → Except PyErr (Str × Str)) (idx : HeaderIdx)
    (line : Str) : Except PyErr Share := do
  let cells := splitOnChar ';' line
  let sym ← pyCell cells idx.symbol
  let si ← fetchSI sym
  let nm ← pyCell cells idx.issuer
  let fc ← pyCell cells idx.fiscal
  let _caen ← pyCell cells idx.caen
  let di ← pyCell cells idx.district
  let co ← pyCell cells idx.country
  let company ← companyFromRow nm fc di co si.1 si.2
  let sym2 ← pyCell cells idx.symbol
  let isin ← pyCell cells idx.isin
  let sname ← pyCell cells idx.secname
  let tot ← pyCell cells idx.shares
  let fv ← pyCell cells idx.face
  let seg ← pyCell cells idx.segment
  let mkt ← pyCell cells idx.market
  let tr ← pyCell cells idx.tier
  shareFromRow sym2 isin sname tot fv seg mkt tr company

/-- Message of the wrapping `Exception` raised by the `except` clause:
`f"[Exception at line beginning with '{response_line_list[0]}'] "`. -/
def rowCtxMsg (line : Str) : Str :=
  "[Exception at line beginning with ".toList
    ++ (splitOnChar ';' line).headD [] ++ "] ".toList

/-- The row loop of `get_all_shares`: any exception inside the `try` block is
replaced by a new `Exception` naming the row's leading field, which
propagates and aborts the whole listing fetch. -/
def processRows (fetchSI : Str → Except PyErr (Str × Str)) (idx : HeaderIdx) :
    List Str → Except PyErr (List Share)
  | [] => .ok []
  | line :: rest =>
    match buildRow fetchSI idx line with
    | .error _ => .error (.exc (rowCtxMsg line))
    | .ok sh =>
      match processRows fetchSI idx rest with
      | .error e => .error e
      | .ok acc => .ok (sh :: acc)

/-- `get_all_shares`, parameterized by the downloaded CSV body and the
per-symbol sector/industry fetch (`__get_sector_and_industry`).  The body is
split on CRLF, the trailing empty line dropped, the header preprocessed and
validated, the index maps built, then every remaining line processed. -/
def getAllShares (body : Str) (fetchSI : Str → Except PyErr (Str × Str)) :
    Except PyErr (List Share) :=
  match (splitCRLF body).dropLast with
  | [] => .error (.indexErr ("list index out of range".toList))
  | header :: rows => do
    let hl := (preprocessHeader header).1
    let _ ← validateHeader hl
    let idx ← buildIdx hl
    processRows fetchSI idx rows

/-! ## `get_history` (src/build/lib/bvbscraper/bvb/scraper_service.py)

`datetime.datetime` values are modelled as a calendar date plus
seconds-of-day plus a timezone-awareness flag (the code mixes naive values
from `strptime` with `tzinfo`-aware ones, and CPython raises `TypeError` when
comparing the two). -/

structure PyDateTime where
  year : Nat
  month : Nat
  day : Nat
  secs : Nat := 0
  aware : Bool := false
deriving DecidableEq, Repr

/-- `_MIN_START_DATE = datetime.datetime(1970, 1, 1, tzinfo=utc)`. -/
def MIN_START_DATE : PyDateTime := { year := 1970, month := 1, day := 1, aware := true }

/-- Days since 1970-01-01 of a civil date (standard civil-from-days
inverse). -/
def toRD (y m d : Nat) : Int :=
  let yy : Int := (y : Int) - (if m ≤ 2 then 1 else 0)
  let era : Int := (if 0 ≤ yy then yy else yy - 399) / 400
  let yoe : Int := yy - era * 400
  let mp : Int := ((m : Int) + 9) % 12
  let doy : Int := (153 * mp + 2) / 5 + (d : Int) - 1
  let doe : Int := yoe * 365 + yoe / 4 - yoe / 100 + doy
  era * 146097 + doe - 719468

/-- Civil date from days since 1970-01-01. -/
def fromRD (z0 : Int) : Nat × Nat × Nat :=
  let z : Int := z0 + 719468
  let era : Int := (if 0 ≤ z then z else z - 146096) / 146097
  let doe : Int := z - era * 146097
  let yoe : Int := (doe - doe / 1460 + doe / 36524 - doe / 146096) / 365
  let y : Int := yoe + era * 400
  let doy : Int := doe - (365 * yoe + yoe / 4 - yoe / 100)
  let mp : Int := (5 * doy + 2) / 153
  let d : Int := doy - (153 * mp + 2) / 5 + 1
  let m : Int := mp + (if mp < 10 then 3 else -9)
  ((y + (if m ≤ 2 then 1 else 0)).toNat, m.toNat, d.toNat)

/-- `datetime - datetime.timedelta(days=n)` (time of day and tzinfo kept). -/
def subDaysDT (dt : PyDateTime) (n : Nat) : PyDateTime :=
  let (y, m, d) := fromRD (toRD dt.year dt.month dt.day - (n : Int))
  { dt with year := y, month := m, day := d }

def isLeap (y : Nat) : Bool := y % 4 = 0 && (y % 100 ≠ 0 || y % 400 = 0)

def daysInMonth (y m : Nat) : Nat :=
  if m = 2 then (if isLeap y then 29 else 28)
  else if m ∈ [4, 6, 9, 11] then 30 else 31

/-- `datetime - dateutil.relativedelta(months=k)`: month arithmetic with the
day clamped into the target month. -/
def subMonthsDT (dt : PyDateTime) (k : Nat) : PyDateTime :=
  let total : Int := (dt.year : Int) * 12 + ((dt.month : Int) - 1) - (k : Int)
  let y : Nat := (total / 12).toNat
  let m : Nat := (total % 12).toNat + 1
  { dt with year := y, month := m, day := min dt.day (daysInMonth y m) }

/-- The calendar delta of each `_HISTORY_PERIODS` entry (weeks are exact
days; `1Y..10Y` are `relativedelta` whole months). -/
inductive PDelta where
  | days (n : Nat)
  | months (n : Nat)
  | ytd
  | maxPeriod
deriving DecidableEq, Repr

def historyPeriods : List (Str × PDelta) :=
  [("1D".toList, .days 1), ("5D".toList, .days 5),
   ("1W".toList, .days 7), ("2W".toList, .days 14),
   ("1M".toList, .months 1), ("3M".toList, .months 3), ("6M".toList, .months 6),
   ("1Y".toList, .months 12), ("2Y".toList, .months 24),
   ("5Y".toList, .months 60), ("10Y".toList, .months 120),
   ("YTD".toList, .ytd), ("MAX".toList, .maxPeriod)]

/-- A `start_date` / `end_date` argument of `get_history`: `None`, a string,
or a `datetime.datetime`. -/
inductive DateArg where
  | noneArg
  | strArg (s : Str)
  | dtArg (d : PyDateTime)
deriving DecidableEq, Repr

def DateArg.isNoneArg : DateArg → Bool
  | .noneArg => true
  | _ => false

/-- Python truthiness of a date argument (datetimes are always truthy, `""`
is falsy). -/
def truthyArg : DateArg → Bool
  | .noneArg => false
  | .strArg s => !s.isEmpty
  | .dtArg _ => true

/-- `datetime.datetime.strptime(s, "%Y-%m-%d")`: up to 4 year digits, up to 2
month/day digits, whole string consumed, calendar-valid; the result is
naive. -/
def parseDigits (maxLen : Nat) (s : Str) : Option (Nat × Str) :=
  let ds := (s.take maxLen).takeWhile Char.isDigit
  if ds.isEmpty then none else some (digitsToNat ds, s.drop ds.length)

def strptimeYmd (s : Str) : Option PyDateTime := do
  let (y, r1) ← parseDigits 4 s
  let r2 ← match r1 with | '-' :: r => some r | _ => none
  let (m, r3) ← parseDigits 2 r2
  let r4 ← match r3 with | '-' :: r => some r | _ => none
  let (d, r5) ← parseDigits 2 r4
  if r5 = [] ∧ 1 ≤ y ∧ 1 ≤ m ∧ m ≤ 12 ∧ 1 ≤ d ∧ d ≤ daysInMonth y m then
    some { year := y, month := m, day := d }
  else none

/-- A strictly monotone key on in-range datetimes, used for `<`. -/
def dtKey (d : PyDateTime) : Nat :=
  ((d.year * 13 + d.month) * 32 + d.day) * 86400 + d.secs

/-- `a < b` on datetimes: CPython raises `TypeError` when exactly one side is
timezone-aware. -/
def pyLtDT (a b : PyDateTime) : Except PyErr Bool :=
  if a.aware ≠ b.aware then
    .error (.typeErr ("cant compare offset-naive and offset-aware datetimes".toList))
  else .ok (decide (dtKey a < dtKey b))

/-- The date-range resolution of `get_history` (build/lib scraper_service.py,
lines 544-593): `now` stands for `datetime.datetime.now(tz=utc)` and `std`
for `share.start_trading_date`.  Note the code checks `start_date and
end_date` FIRST: explicit dates win over a named period. -/
def resolveHistoryRange (std : Option PyDateTime) (period : Option Str)
    (sd ed : DateArg) (now : PyDateTime) :
    Except PyErr (PyDateTime × PyDateTime) :=
  if period.isNone && sd.isNoneArg && ed.isNoneArg then
    .error (.valueErr ("Period or start and end date must be provided.".toList))
  else if truthyArg sd && truthyArg ed then do
    let s1 ← match sd with
      | .strArg s =>
        match strptimeYmd s with
        | some d => Except.ok d
        | none => Except.error (.valueErr
            ("Start date cannot be converted to datetime.datetime: invalid str format.".toList))
      | .dtArg d => Except.ok d
      | .noneArg => Except.error (.typeErr ("Start date not of type datetime.datetime.".toList))
    let lt ← pyLtDT s1 MIN_START_DATE
    if lt then .error (.valueErr ("Timestamp ranges between 1970 -> 2038".toList))
    else do
      let e1 ← match ed with
        | .strArg s =>
          if pyUpper s = "NOW".toList then Except.ok now
          else
            match strptimeYmd s with
            | some d => Except.ok d
            | none => Except.error (.valueErr
                ("End date cannot be converted to datetime.datetime: invalid str format.".toList))
        | .dtArg d => Except.ok d
        | .noneArg => Except.error (.typeErr ("End date is not of type datetime.datetime.".toList))
      .ok (s1, e1)
  else
    match period with
    | none => .error (.typeErr ("Period must be of type str.".toList))
    | some p =>
      match assocLookup historyPeriods (pyUpper p) with
      | none => .error (.valueErr ("Invalid period.".toList))
      | some delta =>
        let e1 := now
        let s1 := match delta with
          | .ytd => { e1 with month := 1, day := 1 }
          | .maxPeriod => match std with | some d => d | none => MIN_START_DATE
          | .days n => subDaysDT e1 n
          | .months n => subMonthsDT e1 n
        .ok (s1, e1)

/-- `_HISTORY_INTERVALS`: interval key to its `dt` and `p` request fields. -/
def historyIntervals : List (Str × (Str × Str)) :=
  [("1MIN".toList, ("INTRA".toList, "intraday_1".toList)),
   ("5MIN".toList, ("INTRA".toList, "intraday_5".toList)),
   ("15MIN".toList, ("INTRA".toList, "intraday_15".toList)),
   ("30MIN".toList, ("INTRA".toList, "intraday_30".toList)),
   ("1H".toList, ("INTRA".toList, "intraday_60".toList)),
   ("1D".toList, ("DAILY".toList, "day".toList)),
   ("1W".toList, ("DAILY".toList, "week".toList)),
   ("1M".toList, ("MONTH".toList, "month".toList))]

/-- The share data `get_history` reads: the symbol and
`share.start_trading_date`. -/
structure HistShare where
  symbol : Str
  start_trading_date : Option PyDateTime := none
deriving DecidableEq, Repr

/-- The query parameters submitted to the history endpoint (`from`/`to` are
Lean keywords, renamed `fromTs`/`toTs`). -/
structure HistRequest where
  symbol : Str
  dt : Str
  p : Str
  ajust : Nat
  fromTs : Int
  toTs : Int
deriving DecidableEq, Repr

/-- The parsed JSON body of the history endpoint: parallel arrays keyed
`t,o,h,l,c,v` plus the status string `s`. -/
structure HistResponse where
  t : List Int
  o : List ℚ
  h : List ℚ
  l : List ℚ
  c : List ℚ
  v : List Int
  s : Str
deriving DecidableEq, Repr

/-- `int(datetime.timestamp(d))`: epoch seconds; a naive datetime is
interpreted in the local timezone, modelled by the explicit offset
`localOff` (seconds east of UTC); aware values here are UTC. -/
def pyTimestamp (localOff : Int) (d : PyDateTime) : Int :=
  toRD d.year d.month d.day * 86400 + (d.secs : Int) - (if d.aware then 0 else localOff)

/-- `get_history` with `format='json'` (the default): resolve the range,
validate the interval, map `adjusted` to 0/1, convert both bounds to epoch
seconds, issue the request (`fetch` models `get_url_response(...).json()`)
and return the parsed response VERBATIM.  The function never calls
`warnings.warn`, so the warning list in the result is always empty; no status
field of the response is inspected. -/
def getHistoryJson (share : HistShare) (period : Option Str) (sd ed : DateArg)
    (interval : Str) (adjusted : Bool) (now : PyDateTime) (localOff : Int)
    (fetch : HistRequest → HistResponse) :
    Except PyErr (HistResponse × List Str) := do
  let (s1, e1) ← resolveHistoryRange share.start_trading_date period sd ed now
  match assocLookup historyIntervals (pyUpper interval) with
  | none => .error (.valueErr ("Invalid interval.".toList))
  | some _ =>
    -- the membership check uses interval.upper() but the dict is then indexed
    -- with the ORIGINAL interval string: a lowercase interval passes the
    -- check and raises KeyError here
    match assocLookup historyIntervals interval with
    | none => .error (.keyErr interval)
    | some (dtv, pv) =>
      let resp := fetch { symbol := share.symbol, dt := dtv, p := pv,
                          ajust := if adjusted then 1 else 0,
                          fromTs := pyTimestamp localOff s1,
                          toTs := pyTimestamp localOff e1 }
      .ok (resp, [])

/-! ## Lemmas about the header normalizer -/

theorem translatePass_eq (ts : List Str) :
    translatePass ts = (ts.map translateTok,
      (ts.filter (fun t => (assocLookup roEnMappings t).isNone)).map warnMsg) := by
  induction ts with
  | nil => rfl
  | cons t ts ih =>
    simp only [translatePass, ih, List.map_cons, List.filter_cons]
    cases h : assocLookup roEnMappings t <;>
      simp [translateTok, h]

/-- The statement of claim C6 at a given header line. -/
def c6Prop (line : Str) : Prop :=
  (preprocessHeader line).1 = (headerToks line).map translateTok ∧
  (preprocessHeader line).2 =
    ((headerToks line).filter (fun t => (assocLookup roEnMappings t).isNone)).map warnMsg ∧
  translateTok ("Simbol".toList) = "Symbol".toList ∧
  (∀ kv ∈ roEnMappings, translateTok kv.1 = kv.2) ∧
  (∀ t, assocLookup roEnMappings t = none → translateTok t = t)

/-- Claim C6: when the split-and-trimmed token list contains "Simbol", every
token is translated through the fixed lookup table — "Simbol" becomes
"Symbol" and each of the other known Romanian headers becomes its English
equivalent — while every token absent from the table passes through
unchanged, emitting exactly one warning per unmapped token. -/
theorem claim6_romanian_header_translation (line : Str)
    (hmem : "Simbol".toList ∈ headerToks line) : c6Prop line := by
  have hpre : preprocessHeader line = translatePass (headerToks line) := by
    unfold preprocessHeader
    rw [if_pos hmem]
  refine ⟨?_, ?_, ?_, ?_, ?_⟩
  · rw [hpre, translatePass_eq]
  · rw [hpre, translatePass_eq]
  · decide
  · decide
  · intro t ht
    simp [translateTok, ht]

/-- Witness for C6 at the concrete Romanian header line
`"Simbol;Denumire emisiune;Foo"`. -/
theorem claim6_romanian_header_translation_witness :
    c6Prop ("Simbol;Denumire emisiune;Foo".toList) :=
  claim6_romanian_header_translation _ (by decide)

/-! ## Lemmas about the header validation -/

theorem validateGo_eq (hl : List Str) (es : List Str) :
    validateGo hl es =
      match es.find? (fun e => decide (e ∉ hl)) with
      | some e => Except.error (PyErr.keyErr (missingMsg e))
      | none => Except.ok () := by
  induction es with
  | nil => rfl
  | cons e es ih =>
    by_cases h : e ∈ hl
    · have hp : (fun e => decide (e ∉ hl)) e = false := by simp [h]
      rw [List.find?_cons_of_neg _ (by simp [h])]
      simpa [validateGo, h] using ih
    · rw [List.find?_cons_of_pos _ (by simp [h])]
      simp [validateGo, h]

/-- Claim C7: header validation succeeds exactly when all 16 expected
canonical column names are present (order and extra columns are irrelevant),
and a failure is a `KeyError` naming the first missing expected header. -/
theorem claim7_header_validation (hl : List Str) :
    (validateHeader hl = Except.ok () ↔ ∀ e ∈ expectedHeaderList, e ∈ hl) ∧
    (validateHeader hl =
      match expectedHeaderList.find? (fun e => decide (e ∉ hl)) with
      | some e => Except.error (PyErr.keyErr (missingMsg e))
      | none => Except.ok ()) ∧
    expectedHeaderList.length = 16 := by
  have heq := validateGo_eq hl expectedHeaderList
  refine ⟨?_, heq, by decide⟩
  rw [validateHeader, heq]
  constructor
  · intro hok e he
    cases hf : expectedHeaderList.find? (fun e => decide (e ∉ hl)) with
    | none =>
      have := List.find?_eq_none.mp hf e he
      simpa using this
    | some m => rw [hf] at hok; cases hok
  · intro hall
    have hf : expectedHeaderList.find? (fun e => decide (e ∉ hl)) = none := by
      rw [List.find?_eq_none]
      intro e he
      simpa using hall e he
    rw [hf]

/-! ## Split / join / strip lemmas for C9 -/

theorem splitOnChar_ne_nil (c : Char) (s : Str) : splitOnChar c s ≠ [] := by
  induction s with
  | nil => simp [splitOnChar]
  | cons x xs ih =>
    rcases h : splitOnChar c xs with _ | ⟨t, ts⟩
    · exact absurd h ih
    · simp only [splitOnChar, h]
      split <;> simp

theorem mem_splitOnChar_not_mem (c : Char) (s : Str) :
    ∀ t ∈ splitOnChar c s, c ∉ t := by
  induction s with
  | nil =>
    intro t ht
    simp [splitOnChar] at ht
    simp [ht]
  | cons x xs ih =>
    intro t ht
    rcases h : splitOnChar c xs with _ | ⟨t', ts'⟩
    · exact absurd h (splitOnChar_ne_nil c xs)
    · rw [h] at ih
      simp only [splitOnChar, h] at ht
      by_cases hx : x = c
      · rw [if_pos hx] at ht
        rcases List.mem_cons.mp ht with rfl | ht2
        · simp
        · exact ih t ht2
      · rw [if_neg hx] at ht
        rcases List.mem_cons.mp ht with rfl | ht2
        · intro hc
          rcases List.mem_cons.mp hc with rfl | hc2
          · exact hx rfl
          · exact ih t' (List.mem_cons_self _ _) hc2
        · exact ih t (List.mem_cons_of_mem _ ht2)

theorem splitOnChar_no_sep (c : Char) (t : Str) (h : c ∉ t) :
    splitOnChar c t = [t] := by
  induction t with
  | nil => rfl
  | cons x xs ih =>
    have hx : ¬x = c := fun he => h (by simp [he])
    have hxs : c ∉ xs := fun hc => h (List.mem_cons_of_mem _ hc)
    simp only [splitOnChar, ih hxs]
    rw [if_neg hx]

theorem splitOnChar_append_sep (c : Char) (t r : Str) (h : c ∉ t) :
    splitOnChar c (t ++ c :: r) = t :: splitOnChar c r := by
  induction t with
  | nil =>
    rcases hr : splitOnChar c r with _ | ⟨t', ts'⟩
    · exact absurd hr (splitOnChar_ne_nil c r)
    · simp [splitOnChar, hr]
  | cons x xs ih =>
    have hx : ¬x = c := fun he => h (by simp [he])
    have hxs : c ∉ xs := fun hc => h (List.mem_cons_of_mem _ hc)
    have key : splitOnChar c ((x :: xs) ++ c :: r) =
        match splitOnChar c (xs ++ c :: r) with
        | [] => [[]]
        | t :: ts => if x = c then [] :: t :: ts else (x :: t) :: ts := rfl
    rw [key, ih hxs]
    simp [hx]

theorem split_join (c : Char) (ts : List Str) (h0 : ts ≠ [])
    (h : ∀ t ∈ ts, c ∉ t) : splitOnChar c (joinChar c ts) = ts := by
  induction ts with
  | nil => exact absurd rfl h0
  | cons t rest ih =>
    cases rest with
    | nil =>
      simp only [joinChar]
      exact splitOnChar_no_sep c t (h t (List.mem_cons_self _ _))
    | cons t' rest' =>
      have hjoin : joinChar c (t :: t' :: rest') = t ++ c :: joinChar c (t' :: rest') := rfl
      rw [hjoin, splitOnChar_append_sep c t _ (h t (List.mem_cons_self _ _))]
      rw [ih (by simp) (fun u hu => h u (List.mem_cons_of_mem _ hu))]

theorem mem_pyStrip (s : Str) (a : Char) (h : a ∈ pyStrip s) : a ∈ s := by
  unfold pyStrip List.rdropWhile at h
  rw [List.mem_reverse] at h
  have h1 : a ∈ (s.dropWhile pyIsSpace).reverse :=
    (List.dropWhile_sublist _).subset h
  rw [List.mem_reverse] at h1
  exact (List.dropWhile_sublist _).subset h1

theorem pyStrip_idem (s : Str) : pyStrip (pyStrip s) = pyStrip s := by
  unfold pyStrip
  have hdw : List.dropWhile pyIsSpace (s.dropWhile pyIsSpace) = s.dropWhile pyIsSpace :=
    List.dropWhile_idempotent _ _
  have h2 : List.dropWhile pyIsSpace
      (List.rdropWhile pyIsSpace (s.dropWhile pyIsSpace)) =
      List.rdropWhile pyIsSpace (s.dropWhile pyIsSpace) := by
    rcases hr : List.rdropWhile pyIsSpace (s.dropWhile pyIsSpace) with _ | ⟨a, w⟩
    · simp
    · obtain ⟨t0, ht0⟩ :=
        List.dropWhile_suffix (l := (s.dropWhile pyIsSpace).reverse) pyIsSpace
      have hu2 : s.dropWhile pyIsSpace = (a :: w) ++ t0.reverse := by
        have hrev := congrArg List.reverse ht0
        rw [List.reverse_append, List.reverse_reverse] at hrev
        rw [← hrev, ← List.rdropWhile, hr]
      have hpa : pyIsSpace a = false := by
        by_contra hpa'
        have hpa2 : pyIsSpace a = true := by
          cases hv : pyIsSpace a
          · exact absurd hv hpa'
          · rfl
        rw [hu2, List.cons_append, List.dropWhile_cons_of_pos hpa2] at hdw
        have hlen := congrArg List.length hdw
        have hle := (List.dropWhile_sublist (l := w ++ t0.reverse) pyIsSpace).length_le
        simp only [List.length_cons] at hlen
        omega
      rw [List.dropWhile_cons_of_neg (by simp [hpa])]
  rw [h2, List.rdropWhile_idempotent]

/-- Claim C9: header preprocessing is idempotent on an already-English header
line — one whose split-and-trimmed token list does not contain the Romanian
marker "Simbol": re-joining the once-preprocessed tokens with ";" and
preprocessing again yields the same token list. -/
theorem claim9_preprocess_idempotent (line : Str)
    (h : "Simbol".toList ∉ headerToks line) :
    (preprocessHeader (joinChar ';' (preprocessHeader line).1)).1 =
      (preprocessHeader line).1 := by
  have h1 : preprocessHeader line = (headerToks line, []) := by
    unfold preprocessHeader
    rw [if_neg h]
  rw [h1]
  have hne : headerToks line ≠ [] := by
    unfold headerToks
    simp [splitOnChar_ne_nil]
  have hnosep : ∀ t ∈ headerToks line, ';' ∉ t := by
    intro t ht hc
    obtain ⟨u, hu, hut⟩ := List.mem_map.mp ht
    exact mem_splitOnChar_not_mem ';' line u hu (mem_pyStrip u ';' (hut ▸ hc))
  have hsplit : splitOnChar ';' (joinChar ';' (headerToks line)) = headerToks line :=
    split_join ';' _ hne hnosep
  have htoks : headerToks (joinChar ';' (headerToks line)) = headerToks line := by
    show (splitOnChar ';' (joinChar ';' (headerToks line))).map pyStrip = headerToks line
    rw [hsplit]
    show (((splitOnChar ';' line).map pyStrip).map pyStrip) = (splitOnChar ';' line).map pyStrip
    rw [List.map_map]
    congr 1
    funext x
    exact pyStrip_idem x
  have h2 : "Simbol".toList ∉ headerToks (joinChar ';' (headerToks line)) := by
    rw [htoks]; exact h
  unfold preprocessHeader
  rw [if_neg h2, htoks]

/-- Witness for C9 at the concrete English header line `"Symbol;ISIN;Extra"`. -/
theorem claim9_preprocess_idempotent_witness :
    (preprocessHeader (joinChar ';' (preprocessHeader ("Symbol;ISIN;Extra".toList)).1)).1 =
      (preprocessHeader ("Symbol;ISIN;Extra".toList)).1 :=
  claim9_preprocess_idempotent _ (by decide)

/-! ## C5: fail-fast row processing of `get_all_shares` -/

/-- The successful value of a row construction, if any. -/
def okValue? : Except PyErr Share → Option Share
  | .ok sh => some sh
  | .error _ => none

/-- Claim C5: the row loop of `get_all_shares` is fail-fast.  If some row's
construction fails, the result is exactly the wrapping `Exception` naming the
first failing row's leading field (the whole fetch aborts, no partial list);
otherwise every row yields a `Share`, in file order, none skipped. -/
theorem claim5_row_failfast (fetchSI : Str → Except PyErr (Str × Str))
    (idx : HeaderIdx) (rows : List Str) :
    processRows fetchSI idx rows =
      match rows.find? (fun l => (okValue? (buildRow fetchSI idx l)).isNone) with
      | some l => Except.error (PyErr.exc (rowCtxMsg l))
      | none => Except.ok (rows.map (fun l => (okValue? (buildRow fetchSI idx l)).getD {})) := by
  induction rows with
  | nil => rfl
  | cons line rest ih =>
    cases hb : buildRow fetchSI idx line with
    | error e =>
      rw [List.find?_cons_of_pos _ (by simp [okValue?, hb])]
      simp [processRows, hb]
    | ok sh =>
      rw [List.find?_cons_of_neg _ (by simp [okValue?, hb])]
      simp only [processRows, hb, ih]
      cases hf : rest.find? (fun l => (okValue? (buildRow fetchSI idx l)).isNone) with
      | some l' => simp
      | none => simp [okValue?, hb]

/-! ## C1: the accept-or-raise dichotomy of the field setters -/

/-- The amended statement of claim C1 at state `c` / `sh` and non-empty
string input `s`: every covered setter either stores the (normalized) value
or raises.  `Company.email`, `Company.nace_code`,
`Company.commerce_registry_code` and `Share.face_value` are excluded: they
silently drop a non-empty value that fails their format check. -/
def c1Prop (c : Company) (sh : Share) (s : Str) : Prop :=
  (c.set_name (some s) = .ok { c with name := some s }) ∧
  (c.set_fiscal_code (some s) = .ok { c with fiscal_code := some s } ∨
    ∃ m, c.set_fiscal_code (some s) = .error (.valueErr m)) ∧
  (c.set_district (some s) = .ok { c with district := some s }) ∧
  (c.set_country_iso2 (some s) = .ok { c with country_iso2 := some (pyStrip (pyUpper s)) } ∨
    ∃ m, c.set_country_iso2 (some s) = .error (.valueErr m)) ∧
  (c.set_sector (some s) = .ok { c with sector := some (pyUpper s) }) ∧
  (c.set_industry (some s) = .ok { c with industry := some (pyUpper s) }) ∧
  (c.set_address (some s) = .ok { c with address := some s }) ∧
  (c.set_website (some s) = .ok { c with website := some s }) ∧
  (c.set_description (some s) = .ok { c with description := some s }) ∧
  (c.set_activity_field (some s) = .ok { c with activity_field := some (pyUpper s) }) ∧
  (∃ m, c.set_shareholders (some s) = .error (.typeErr m)) ∧
  (sh.set_symbol (some s) =
      .ok { sh with symbol := some (pyUpper (s.filter (fun ch => ch ≠ ' '))) } ∨
    ∃ m, sh.set_symbol (some s) = .error (.valueErr m)) ∧
  (sh.set_isin (some s) = .ok { sh with isin := some s } ∨
    ∃ m, sh.set_isin (some s) = .error (.valueErr m)) ∧
  (sh.set_name (some s) = .ok { sh with name := some s }) ∧
  (∀ co : Company, sh.set_company (some co) = .ok { sh with company := some co }) ∧
  ((∃ n, sh.set_total_shares (some s) = .ok { sh with total_shares := some n }) ∨
    ∃ e, sh.set_total_shares (some s) = .error e) ∧
  (sh.set_segment (some s) = .ok { sh with segment := some s } ∨
    ∃ m, sh.set_segment (some s) = .error (.valueErr m)) ∧
  (sh.set_market (some s) = .ok { sh with market := some s } ∨
    sh.set_market (some s) = .ok { sh with market := none } ∨
    ∃ m, sh.set_market (some s) = .error (.valueErr m)) ∧
  ((∃ t, sh.set_tier (some s) = .ok { sh with tier := some t }) ∨
    sh.set_tier (some s) = .ok { sh with tier := none } ∨
    ∃ m, sh.set_tier (some s) = .error (.valueErr m)) ∧
  (sh.set_status (some s) = .ok { sh with status := some ("TRADEABLE".toList) } ∨
    sh.set_status (some s) = .ok { sh with status := some ("SUSPENDED".toList) } ∨
    ∃ m, sh.set_status (some s) = .error (.valueErr m))

/-- Claim C1 (amended): for every non-empty string input, each setter other
than the four silently-dropping ones either stores the documented
normalization of the value or raises a validation error. -/
theorem claim1_setters_accept_or_raise (c : Company) (sh : Share) (s : Str)
    (h : s ≠ []) : c1Prop c sh s := by
  refine ⟨?_, ?_, ?_, ?_, ?_, ?_, ?_, ?_, ?_, ?_, ?_, ?_, ?_, ?_, ?_, ?_, ?_, ?_, ?_, ?_⟩
  · simp only [Company.set_name]
    split_ifs with h1
    · exact absurd h1 h
    · rfl
  · simp only [Company.set_fiscal_code]
    split_ifs with h1 h2
    · exact absurd h1 h
    · exact Or.inr ⟨_, rfl⟩
    · exact Or.inl rfl
  · simp only [Company.set_district]
    split_ifs with h1
    · exact absurd h1 h
    · rfl
  · simp only [Company.set_country_iso2]
    split_ifs with h1 h2
    · exact absurd h1 h
    · exact Or.inl rfl
    · exact Or.inr ⟨_, rfl⟩
  · simp only [Company.set_sector]
    split_ifs with h1
    · exact absurd h1 h
    · rfl
  · simp only [Company.set_industry]
    split_ifs with h1
    · exact absurd h1 h
    · rfl
  · simp only [Company.set_address]
    split_ifs with h1
    · exact absurd h1 h
    · rfl
  · simp only [Company.set_website]
    split_ifs with h1
    · exact absurd h1 h
    · rfl
  · simp only [Company.set_description]
    split_ifs with h1
    · exact absurd h1 h
    · rfl
  · simp only [Company.set_activity_field]
    split_ifs with h1
    · exact absurd h1 h
    · rfl
  · simp only [Company.set_shareholders]
    split_ifs with h1
    · exact absurd h1 h
    · exact ⟨_, rfl⟩
  · simp only [Share.set_symbol]
    split_ifs with h1 h2
    · exact absurd h1 h
    · exact Or.inl rfl
    · exact Or.inr ⟨_, rfl⟩
  · simp only [Share.set_isin]
    split_ifs with h1 h2
    · exact absurd h1 h
    · exact Or.inl rfl
    · exact Or.inr ⟨_, rfl⟩
  · simp only [Share.set_name]
    split_ifs with h1
    · exact absurd h1 h
    · rfl
  · intro co
    rfl
  · simp only [Share.set_total_shares]
    split_ifs with h1
    · exact absurd h1 h
    · cases hp : pyIntOfStr s with
      | none =>
        simp only [hp]
        exact Or.inr ⟨_, rfl⟩
      | some n =>
        simp only [hp]
        split_ifs with hn
        · exact Or.inr ⟨_, rfl⟩
        · exact Or.inl ⟨n, rfl⟩
  · simp only [Share.set_segment]
    split_ifs with h1 h2
    · exact absurd h1 h
    · exact Or.inl rfl
    · exact Or.inr ⟨_, rfl⟩
  · simp only [Share.set_market]
    split_ifs with h1 h2 h3
    · exact absurd h1 h
    · exact Or.inl rfl
    · exact Or.inr (Or.inl rfl)
    · exact Or.inr (Or.inr ⟨_, rfl⟩)
  · simp only [Share.set_tier]
    split_ifs with h1 h2 h3
    · exact absurd h1 h
    · exact Or.inl ⟨_, rfl⟩
    · exact Or.inr (Or.inl rfl)
    · exact Or.inr (Or.inr ⟨_, rfl⟩)
  · simp only [Share.set_status]
    split_ifs with h1 h2 h3
    · exact absurd h1 h
    · exact Or.inl rfl
    · exact Or.inr (Or.inl rfl)
    · exact Or.inr (Or.inr ⟨_, rfl⟩)

/-- Witness for C1 (amended) at the concrete non-empty input `"A"`. -/
theorem claim1_setters_accept_or_raise_witness : c1Prop {} {} ("A".toList) :=
  claim1_setters_accept_or_raise {} {} _ (by decide)

/-- Counterexample to C1 as stated: the non-empty, invalid email `"abc"` is
silently dropped by `Company.email` — the setter neither stores it nor raises
(the state is returned unchanged and the getter still reads `None`). -/
theorem claim1_counterexample :
    Company.set_email {} (some ("abc".toList)) = .ok {} ∧
    ({} : Company).email = none ∧ "abc".toList ≠ [] :=
  ⟨by decide, rfl, by decide⟩

/-! ## C10: falsy assignments are no-ops; the `"-"` sentinel clears -/

/-- The amended statement of claim C10 at states `c` and `sh`: assigning
`None` or the falsy `""` to any optional-field setter leaves the state
unchanged, and the `Share.market` / `Share.tier` setters given the sentinel
`"-"` overwrite the field with `None` (so those two CAN return an already-set
optional field to the absent reading). -/
def c10Prop (c : Company) (sh : Share) : Prop :=
  (c.set_nace_code none = .ok c) ∧ (c.set_nace_code (some []) = .ok c) ∧
  (c.set_district none = .ok c) ∧ (c.set_district (some []) = .ok c) ∧
  (c.set_country_iso2 none = .ok c) ∧ (c.set_country_iso2 (some []) = .ok c) ∧
  (c.set_sector none = .ok c) ∧ (c.set_sector (some []) = .ok c) ∧
  (c.set_industry none = .ok c) ∧ (c.set_industry (some []) = .ok c) ∧
  (c.set_commerce_registry_code none = .ok c) ∧
  (c.set_commerce_registry_code (some []) = .ok c) ∧
  (c.set_address none = .ok c) ∧ (c.set_address (some []) = .ok c) ∧
  (c.set_website none = .ok c) ∧ (c.set_website (some []) = .ok c) ∧
  (c.set_email none = .ok c) ∧ (c.set_email (some []) = .ok c) ∧
  (c.set_activity_field none = .ok c) ∧ (c.set_activity_field (some []) = .ok c) ∧
  (c.set_description none = .ok c) ∧ (c.set_description (some []) = .ok c) ∧
  (c.set_shareholders none = .ok c) ∧ (c.set_shareholders (some []) = .ok c) ∧
  (sh.set_isin none = .ok sh) ∧ (sh.set_isin (some []) = .ok sh) ∧
  (sh.set_name none = .ok sh) ∧ (sh.set_name (some []) = .ok sh) ∧
  (sh.set_company none = .ok sh) ∧
  (sh.set_total_shares none = .ok sh) ∧ (sh.set_total_shares (some []) = .ok sh) ∧
  (sh.set_face_value none = .ok sh) ∧ (sh.set_face_value (some []) = .ok sh) ∧
  (sh.set_segment none = .ok sh) ∧ (sh.set_segment (some []) = .ok sh) ∧
  (sh.set_market none = .ok sh) ∧ (sh.set_market (some []) = .ok sh) ∧
  (sh.set_tier none = .ok sh) ∧ (sh.set_tier (some []) = .ok sh) ∧
  (sh.set_status none = .ok sh) ∧ (sh.set_status (some []) = .ok sh) ∧
  (sh.set_market (some ("-".toList)) = .ok { sh with market := none }) ∧
  (sh.set_tier (some ("-".toList)) = .ok { sh with tier := none })

/-- Claim C10 (amended): falsy assignments to the optional setters are
no-ops, but the `"-"` sentinel in `Share.market` / `Share.tier` clears an
already-set field back to the absent reading. -/
theorem claim10_falsy_noop (c : Company) (sh : Share) : c10Prop c sh :=
  ⟨rfl, rfl, rfl, rfl, rfl, rfl, rfl, rfl, rfl, rfl, rfl, rfl, rfl, rfl, rfl,
   rfl, rfl, rfl, rfl, rfl, rfl, rfl, rfl, rfl, rfl, rfl, rfl, rfl, rfl, rfl,
   rfl, rfl, rfl, rfl, rfl, rfl, rfl, rfl, rfl, rfl, rfl, rfl, rfl⟩

/-- Counterexample to C10 as stated: assigning the truthy string `"-"` to an
already-set `Share.market` stores `None`, returning the field to the absent
reading — so a setter CAN clear an already-set optional field. -/
theorem claim10_counterexample :
    Share.set_market { market := some ("REGS".toList) } (some ("-".toList)) =
      .ok ({} : Share) ∧
    ({} : Share).market = none ∧
    ({ market := some ("REGS".toList) } : Share).market ≠ none :=
  ⟨by decide, rfl, by decide⟩

/-! ## C8: the ISIN setter -/

/-- A findall match of the `$`-anchored ISIN pattern is a full-string match
or a full-string match followed by one trailing newline. -/
theorem reDollar_iff (body : Str → Bool) (s : Str) :
    reDollar body s = true ↔
      (body s = true ∨ ∃ t, s = t ++ ['\n'] ∧ body t = true) := by
  unfold reDollar
  rw [Bool.or_eq_true]
  apply or_congr Iff.rfl
  simp only [Bool.and_eq_true, decide_eq_true_eq]
  constructor
  · rintro ⟨hl, hb⟩
    obtain ⟨ys, hys⟩ := List.getLast?_eq_some_iff.mp hl
    subst hys
    rw [List.dropLast_concat] at hb
    exact ⟨ys, rfl, hb⟩
  · rintro ⟨t, rfl, hb⟩
    refine ⟨List.getLast?_concat t, ?_⟩
    rw [List.dropLast_concat]
    exact hb

/-- The amended statement of claim C8 at state `sh` and string `s`. -/
def c8Prop (sh : Share) (s : Str) : Prop :=
  (s = [] → sh.set_isin (some s) = .ok sh) ∧
  (s ≠ [] → reDollar isinBody s = true →
    sh.set_isin (some s) = .ok { sh with isin := some s } ∧
    ({ sh with isin := some s } : Share).isin = some s) ∧
  (s ≠ [] → reDollar isinBody s = false →
    ∃ m, sh.set_isin (some s) = .error (.valueErr m)) ∧
  (reDollar isinBody s = true ↔
    (isinBody s = true ∨ ∃ t, s = t ++ ['\n'] ∧ isinBody t = true))

/-- Claim C8 (amended): a full-string match of the ISIN pattern — or such a
match with one trailing newline, which CPython's `$` also accepts — is stored
verbatim and round-trips through the getter; every other non-empty string
raises `ValueError`; the empty string is silently ignored. -/
theorem claim8_isin_roundtrip (sh : Share) (s : Str) : c8Prop sh s := by
  refine ⟨?_, ?_, ?_, reDollar_iff _ _⟩
  · intro h1
    simp [Share.set_isin, h1]
  · intro h1 h2
    refine ⟨?_, rfl⟩
    simp [Share.set_isin, h1, h2]
  · intro h1 h2
    simp only [Share.set_isin]
    split_ifs with ha hb
    · exact absurd ha h1
    · rw [h2] at hb; cases hb
    · exact ⟨_, rfl⟩

/-- Counterexample to C8 as stated: the empty string does not match the
pattern yet raises nothing (silent no-op), and a valid ISIN followed by a
trailing newline does not match the pattern as a whole string yet is accepted
and stored (with the newline). -/
theorem claim8_counterexample :
    Share.set_isin {} (some []) = .ok ({} : Share) ∧
    ({} : Share).isin = none ∧
    isinBody [] = false ∧
    Share.set_isin {} (some ("RO1234567890\n".toList)) =
      .ok { isin := some ("RO1234567890\n".toList) } ∧
    isinBody ("RO1234567890\n".toList) = false :=
  ⟨rfl, rfl, rfl, by decide, by decide⟩

/-! ## C2, C3, C4: `get_history` -/

/-- Claim C2 (amended): when BOTH explicit start and end dates are truthy,
the named period is never consulted — the outcome of the date-range
resolution is identical to calling without a period (the explicit dates win,
the opposite of the claimed precedence). -/
theorem claim2_dates_win_over_period (std : Option PyDateTime) (p : Str)
    (sd ed : DateArg) (now : PyDateTime)
    (hs : truthyArg sd = true) (he : truthyArg ed = true) :
    resolveHistoryRange std (some p) sd ed now =
      resolveHistoryRange std none sd ed now := by
  have h1 : sd.isNoneArg = false := by
    cases sd <;> simp_all [truthyArg, DateArg.isNoneArg]
  unfold resolveHistoryRange
  simp [h1, hs, he]

/-- Witness for C2 (amended) at concrete aware datetimes and period "YTD". -/
theorem claim2_dates_win_over_period_witness :
    resolveHistoryRange none (some ("YTD".toList))
        (.dtArg ⟨2020, 2, 3, 0, true⟩) (.dtArg ⟨2020, 5, 6, 0, true⟩)
        ⟨2024, 6, 15, 0, true⟩ =
      resolveHistoryRange none none
        (.dtArg ⟨2020, 2, 3, 0, true⟩) (.dtArg ⟨2020, 5, 6, 0, true⟩)
        ⟨2024, 6, 15, 0, true⟩ :=
  claim2_dates_win_over_period none _ _ _ _ (by decide) (by decide)

/-- Counterexample to C2 as stated: with period "YTD" AND both explicit
dates given, the resolved range equals the explicit dates, not the YTD range
(January 1 of the current year to now). -/
theorem claim2_counterexample :
    resolveHistoryRange none (some ("YTD".toList))
        (.dtArg ⟨2020, 2, 3, 0, true⟩) (.dtArg ⟨2020, 5, 6, 0, true⟩)
        ⟨2024, 6, 15, 0, true⟩ =
      .ok (⟨2020, 2, 3, 0, true⟩, ⟨2020, 5, 6, 0, true⟩) ∧
    ((⟨2020, 2, 3, 0, true⟩ : PyDateTime), (⟨2020, 5, 6, 0, true⟩ : PyDateTime)) ≠
      (⟨2024, 1, 1, 0, true⟩, ⟨2024, 6, 15, 0, true⟩) :=
  ⟨by decide, by decide⟩

/-- Claim C4 (amended): with no explicit dates, period "YTD" resolves the
range to (January 1 of the current year with now's time of day, now); period
"MAX" resolves the start to `share.start_trading_date` when that is set, and
only otherwise to the exchange epoch 1970-01-01. -/
theorem claim4_ytd_max_resolution (std : Option PyDateTime) (now : PyDateTime) :
    resolveHistoryRange std (some ("YTD".toList)) .noneArg .noneArg now =
      .ok ({ now with month := 1, day := 1 }, now) ∧
    resolveHistoryRange std (some ("MAX".toList)) .noneArg .noneArg now =
      .ok (std.getD MIN_START_DATE, now) := by
  constructor
  · rfl
  · cases std <;> rfl

/-- Counterexample to C4 as stated: for a share whose
`start_trading_date` is 1997-03-04, period "MAX" resolves the start date to
1997-03-04, not to the exchange epoch 1970-01-01. -/
theorem claim4_counterexample :
    resolveHistoryRange (some ⟨1997, 3, 4, 0, false⟩) (some ("MAX".toList))
        .noneArg .noneArg ⟨2024, 6, 15, 0, true⟩ =
      .ok (⟨1997, 3, 4, 0, false⟩, ⟨2024, 6, 15, 0, true⟩) ∧
    (⟨1997, 3, 4, 0, false⟩ : PyDateTime) ≠ MIN_START_DATE :=
  ⟨rfl, by decide⟩

/-- The parsed JSON of a history response with status `"no_data"` and no
data points. -/
def noDataResp : HistResponse :=
  { t := [], o := [], h := [], l := [], c := [], v := [], s := "no_data".toList }

/-- Claim C3 (amended): `get_history` (json format) performs no status-based
post-processing and emits no warning — whatever parsed response the endpoint
returns is handed back verbatim, for any share and any response value. -/
theorem claim3_response_verbatim (sym : Str) (std : Option PyDateTime)
    (resp : HistResponse) :
    getHistoryJson { symbol := sym, start_trading_date := std }
        (some ("YTD".toList)) .noneArg .noneArg ("1D".toList) true
        ⟨2024, 6, 15, 0, true⟩ 0 (fun _ => resp) =
      .ok (resp, []) := by
  rfl

/-- Counterexample to C3 as stated: a `"no_data"` response is returned with
status `"no_data"` (not converted to a status-"ok" empty series) and with
zero warnings (not exactly one). -/
theorem claim3_counterexample :
    getHistoryJson { symbol := "TLV".toList, start_trading_date := none }
        (some ("YTD".toList)) .noneArg .noneArg ("1D".toList) true
        ⟨2024, 6, 15, 0, true⟩ 0 (fun _ => noDataResp) =
      .ok (noDataResp, []) ∧
    noDataResp.s ≠ "ok".toList ∧
    ([] : List Str).length ≠ 1 :=
  ⟨rfl, by decide, by decide⟩
